import Mathlib

/-!
Verification of the optimistic CRUD cache engine and session manager of the
React-Native template repository.

The embedding translates:
* `src/hooks/useBaseCrud.ts` — the optimistic mutation engine over the
  React-Query cache (`create` / `update` / `remove`, each with `onMutate`,
  `onError`, `onSettled` handlers);
* `useAuth.ts` (second document in `src/hooks/useBaseCrud.ts`) — the session
  manager: `saveAuth`, `clearAuth`, `login.onSuccess`, `logout`, the
  `authEvents` subscription handler, and the role/permission helpers;
* `authEvents.ts` (`src/unnamed/part_001`) — the session event bus.

JavaScript objects are embedded as association lists of string keys and
primitive values; the React-Query cache and AsyncStorage are embedded as
(partial) maps; the asynchronous handler bodies are embedded as explicit
sequences of primitive steps over a combined state, so that every `await`
suspension point corresponds to an intermediate state in the step trace.
-/

/-- A JavaScript primitive value as it occurs in entities and cache keys:
either a string or a number.  `===` on such values is decidable equality
(a string is never `===` a number). -/
inductive JSVal where
  | vStr : String → JSVal
  | vNum : Int → JSVal
deriving DecidableEq, Repr

/-- A JavaScript object, embedded as an association list from field names to
primitive values.  Objects entering the cache are well formed: no duplicate
keys. -/
abbrev Obj := List (String × JSVal)

/-- `o.k` — property access: the value of the first binding of `k`, or
`none` for JavaScript `undefined`. -/
def lookupField (o : Obj) (k : String) : Option JSVal :=
  (o.find? (fun p => p.1 == k)).map (·.2)

/-- Whether the object has a binding for `k`. -/
def hasField (o : Obj) (k : String) : Bool :=
  (o.find? (fun p => p.1 == k)).isSome

/-- `item.id` — the identifier field of an entity, `none` when absent. -/
def getId (o : Obj) : Option JSVal := lookupField o "id"

/-- JavaScript spread `\x7b ...a, ...b \x7d`: the keys of `a` in order, each
taking `b`'s value when `b` also binds the key, followed by the keys of `b`
that `a` does not bind, in order. -/
def spread (a b : Obj) : Obj :=
  a.map (fun p =>
    match lookupField b p.1 with
    | some v => (p.1, v)
    | none => p)
  ++ b.filter (fun p => !hasField a p.1)

/-- A React-Query cache key: an ordered sequence of primitive values
(e.g. `["posts"]`).  Two keys are equal iff element-wise equal. -/
abbrev CacheKey := List JSVal

/-- The React-Query client cache: for each key, the stored collection
(`none` = never populated, distinct from `some []`), plus the keys marked
stale by `invalidateQueries` (awaiting reconciliation refetch). -/
structure QueryCache where
  entries : CacheKey → Option (List Obj)
  stale : List CacheKey

/-- `queryClient.getQueryData(queryKey)`. -/
def getQueryData (c : QueryCache) (k : CacheKey) : Option (List Obj) :=
  c.entries k

/-- `queryClient.setQueryData(queryKey, value)` — replaces the entry
wholesale. -/
def setQueryData (c : QueryCache) (k : CacheKey) (v : List Obj) : QueryCache :=
  { c with entries := fun k' => if k' = k then some v else c.entries k' }

/-- `queryClient.setQueryData(queryKey, updater)` with a functional updater
whose parameter defaults to `[]` when the entry is absent
(`(old = []) => ...`). -/
def setQueryDataFn (c : QueryCache) (k : CacheKey) (f : List Obj → List Obj) :
    QueryCache :=
  setQueryData c k (f ((getQueryData c k).getD []))

/-- `queryClient.invalidateQueries(\x7bqueryKey\x7d)` — marks the key for a
reconciliation refetch; the stored data is untouched until the refetch
lands. -/
def invalidateQueries (c : QueryCache) (k : CacheKey) : QueryCache :=
  { c with stale := c.stale ++ [k] }

/-- `queryClient.clear()` — drops every entry and every stale mark. -/
def clearQueryCache : QueryCache :=
  { entries := fun _ => none, stale := [] }

/-- The decimal string representation of a natural number, as produced by
JavaScript number-to-string conversion in the template literal
`temp-${Date.now()}`. -/
def decStr (n : Nat) : String :=
  if n = 0 then "0"
  else String.mk (((Nat.digits 10 n).map Nat.digitChar).reverse)

/-- The synthesized temporary identifier `temp-${Date.now()}`, with the
current time in milliseconds passed explicitly. -/
def tempIdStr (now : Nat) : String := "temp-" ++ decStr now

/-- The entity optimistically inserted by `create`:
`\x7b ...data, id: temp-${Date.now()} \x7d`. -/
def createdEntity (data : Obj) (now : Nat) : Obj :=
  spread data [("id", JSVal.vStr (tempIdStr now))]

/-- The three optimistic mutations of `useBaseCrud`. -/
inductive CrudMutation where
  | create (data : Obj)
  | update (id : JSVal) (data : Obj)
  | remove (id : JSVal)
deriving DecidableEq, Repr

/-- The predicted post-mutation collection written by `onMutate`:
* `create`: `[...old, \x7b ...data, id: temp-... \x7d]`;
* `update`: `old.map(item => item.id === id ? \x7b ...item, ...data \x7d : item)`;
* `remove`: `old.filter(item => item.id !== id)`. -/
def predict (m : CrudMutation) (now : Nat) (old : List Obj) : List Obj :=
  match m with
  | .create data => old ++ [createdEntity data now]
  | .update i d =>
      old.map (fun item => if getId item = some i then spread item d else item)
  | .remove i => old.filter (fun item => !(getId item = some i))

/-- `onMutate`: after `cancelQueries` (which only aborts in-flight fetches
and does not touch stored data), capture `previous = getQueryData(queryKey)`
and write the predicted collection; the captured snapshot is returned as the
mutation context. -/
def onMutate (c : QueryCache) (k : CacheKey) (m : CrudMutation) (now : Nat) :
    QueryCache × Option (List Obj) :=
  (setQueryDataFn c k (predict m now), getQueryData c k)

/-- `onError`: `if (ctx?.previous) setQueryData(queryKey, ctx.previous)`.
A present snapshot (any array, `[]` included, is truthy) is restored
verbatim; an absent snapshot (`undefined`, falsy) leaves the optimistic
write in place. -/
def onErrorRestore (c : QueryCache) (k : CacheKey) (ctx : Option (List Obj)) :
    QueryCache :=
  match ctx with
  | some prev => setQueryData c k prev
  | none => c

/-- A transport error, pre-normalized to a message-bearing object. -/
abbrev NormError := String

/-- The full settlement of one optimistic mutation whose remote call fails:
`onMutate` (snapshot and optimistic write), the remote rejection, `onError`
(conditional rollback), `onSettled` (`invalidateQueries`), and the rejected
`mutateAsync` promise surfaced to the caller. -/
def mutateAsyncFailure (c : QueryCache) (k : CacheKey) (m : CrudMutation)
    (now : Nat) (err : NormError) : QueryCache × Except NormError Obj :=
  let step := onMutate c k m now
  (invalidateQueries (onErrorRestore step.1 k step.2) k, Except.error err)

/-- Cache state after `onMutate` alone — the immediately visible optimistic
state, before the remote call settles. -/
def optimisticState (c : QueryCache) (k : CacheKey) (m : CrudMutation)
    (now : Nat) : QueryCache :=
  (onMutate c k m now).1

theorem getQueryData_setQueryData_self (c : QueryCache) (k : CacheKey)
    (v : List Obj) : getQueryData (setQueryData c k v) k = some v := by
  simp [getQueryData, setQueryData]

theorem getQueryData_invalidateQueries (c : QueryCache) (k k' : CacheKey) :
    getQueryData (invalidateQueries c k') k = getQueryData c k := by
  simp [getQueryData, invalidateQueries]

/-- **C1.** For every cache key and every single optimistic mutation
(create, update or remove) against a key whose entry is present, if the
remote call fails then after settlement the entry equals, element for
element, the snapshot captured before the mutation began — restored
verbatim, with no merge of server state — and the rejection is surfaced to
the caller of `mutateAsync`. -/
theorem rollback_restores_presnapshot (c : QueryCache) (k : CacheKey)
    (m : CrudMutation) (now : Nat) (err : NormError) (prev : List Obj)
    (h : getQueryData c k = some prev) :
    getQueryData (mutateAsyncFailure c k m now err).1 k = some prev ∧
    (mutateAsyncFailure c k m now err).2 = Except.error err := by
  refine ⟨?_, rfl⟩
  simp [mutateAsyncFailure, onMutate, h, onErrorRestore,
    getQueryData_invalidateQueries, getQueryData_setQueryData_self]

/-- Witness for `rollback_restores_presnapshot`: a concrete store holding
`["posts"] ↦ [\x7bid:1, title:"A"\x7d]`, an update that fails remotely. -/
theorem rollback_restores_presnapshot_witness :
    getQueryData
      (mutateAsyncFailure
        ⟨fun k' => if k' = [JSVal.vStr "posts"]
          then some [[("id", JSVal.vNum 1), ("title", JSVal.vStr "A")]]
          else none, []⟩
        [JSVal.vStr "posts"]
        (CrudMutation.update (JSVal.vNum 1) [("title", JSVal.vStr "B")])
        0 "validation error").1
      [JSVal.vStr "posts"]
      = some [[("id", JSVal.vNum 1), ("title", JSVal.vStr "A")]] ∧
    (mutateAsyncFailure
        ⟨fun k' => if k' = [JSVal.vStr "posts"]
          then some [[("id", JSVal.vNum 1), ("title", JSVal.vStr "A")]]
          else none, []⟩
        [JSVal.vStr "posts"]
        (CrudMutation.update (JSVal.vNum 1) [("title", JSVal.vStr "B")])
        0 "validation error").2 = Except.error "validation error" :=
  rollback_restores_presnapshot _ _ _ _ _ _ (by decide)

/-- **C6.** The predicted collection written immediately by an optimistic
`update(id, fields)` replaces, position by position, each entity whose
identifier equals `id` by the shallow merge `\x7b ...item, ...fields \x7d`
and leaves every other entity unchanged (length preserved); concretely, on
the entry `["posts"] ↦ [\x7bid:1,title:"A"\x7d]`, `update(1, \x7btitle:"B"\x7d)`
makes the cache immediately read `[\x7bid:1,title:"B"\x7d]`, and after a
remote rejection it reads `[\x7bid:1,title:"A"\x7d]` again with the error
surfaced. -/
theorem update_shallow_merge_and_rollback (old : List Obj) (i : JSVal)
    (d : Obj) (now : Nat) (j : Nat) :
    (predict (CrudMutation.update i d) now old).length = old.length ∧
    (predict (CrudMutation.update i d) now old)[j]? =
      (old[j]?).map
        (fun item => if getId item = some i then spread item d else item) ∧
    getQueryData
      (optimisticState
        ⟨fun k' => if k' = [JSVal.vStr "posts"]
          then some [[("id", JSVal.vNum 1), ("title", JSVal.vStr "A")]]
          else none, []⟩
        [JSVal.vStr "posts"]
        (CrudMutation.update (JSVal.vNum 1) [("title", JSVal.vStr "B")]) 5)
      [JSVal.vStr "posts"]
      = some [[("id", JSVal.vNum 1), ("title", JSVal.vStr "B")]] ∧
    getQueryData
      (mutateAsyncFailure
        ⟨fun k' => if k' = [JSVal.vStr "posts"]
          then some [[("id", JSVal.vNum 1), ("title", JSVal.vStr "A")]]
          else none, []⟩
        [JSVal.vStr "posts"]
        (CrudMutation.update (JSVal.vNum 1) [("title", JSVal.vStr "B")]) 5
        "validation error").1
      [JSVal.vStr "posts"]
      = some [[("id", JSVal.vNum 1), ("title", JSVal.vStr "A")]] := by
  refine ⟨by simp [predict], by simp [predict], by decide, by decide⟩

/-- **C10.** When a mutation starts while the entry for its key is absent
(never populated: the captured snapshot is `undefined`), a remote failure
does not restore the entry to absent: the `onError` guard `if (ctx?.previous)`
skips the rollback, so the collection written optimistically (computed from
the defaulted `[]`) is still stored after settlement, pending the
reconciliation refetch triggered by `onSettled`. -/
theorem absent_snapshot_not_restored (c : QueryCache) (k : CacheKey)
    (m : CrudMutation) (now : Nat) (err : NormError)
    (h : getQueryData c k = none) :
    getQueryData (mutateAsyncFailure c k m now err).1 k =
      some (predict m now []) ∧
    getQueryData (mutateAsyncFailure c k m now err).1 k ≠ none := by
  constructor <;>
    simp [mutateAsyncFailure, onMutate, h, onErrorRestore, setQueryDataFn,
      getQueryData_invalidateQueries, getQueryData_setQueryData_self]

/-- Witness for `absent_snapshot_not_restored`: a `create` against an empty
store fails remotely; the optimistic singleton collection remains. -/
theorem absent_snapshot_not_restored_witness :
    getQueryData
      (mutateAsyncFailure ⟨fun _ => none, []⟩ [JSVal.vStr "posts"]
        (CrudMutation.create [("title", JSVal.vStr "New")]) 0 "network").1
      [JSVal.vStr "posts"]
      = some (predict (CrudMutation.create [("title", JSVal.vStr "New")]) 0 []) ∧
    getQueryData
      (mutateAsyncFailure ⟨fun _ => none, []⟩ [JSVal.vStr "posts"]
        (CrudMutation.create [("title", JSVal.vStr "New")]) 0 "network").1
      [JSVal.vStr "posts"] ≠ none :=
  absent_snapshot_not_restored _ _ _ _ _ (by decide)

theorem digitChar_inj_below :
    ∀ a : Nat, a < 10 → ∀ b : Nat, b < 10 →
      Nat.digitChar a = Nat.digitChar b → a = b := by decide

theorem map_digitChar_inj : ∀ (l1 l2 : List Nat),
    (∀ x ∈ l1, x < 10) → (∀ x ∈ l2, x < 10) →
    l1.map Nat.digitChar = l2.map Nat.digitChar → l1 = l2 := by
  intro l1
  induction l1 with
  | nil =>
    intro l2 _ _ h
    cases l2 with
    | nil => rfl
    | cons b t2 => simp at h
  | cons a t ih =>
    intro l2 h1 h2 h
    cases l2 with
    | nil => simp at h
    | cons b t2 =>
      simp only [List.map_cons, List.cons.injEq] at h
      have hab := digitChar_inj_below a (h1 a (by simp)) b (h2 b (by simp)) h.1
      have ht := ih t2 (fun x hx => h1 x (by simp [hx]))
        (fun x hx => h2 x (by simp [hx])) h.2
      rw [hab, ht]

theorem string_data_append (a b : String) : (a ++ b).data = a.data ++ b.data := by
  cases a; cases b; rfl

theorem string_ext {a b : String} (h : a.data = b.data) : a = b := by
  cases a; cases b; cases h; rfl

theorem decStr_eq_zero_str (n : Nat) (h : decStr n = "0") : n = 0 := by
  by_contra hn
  simp only [decStr, if_neg hn] at h
  have hd : ((Nat.digits 10 n).map Nat.digitChar).reverse = ['0'] :=
    congrArg String.data h
  have hrev : (Nat.digits 10 n).map Nat.digitChar = ['0'] := by
    have := congrArg List.reverse hd
    simpa using this
  rcases hds : Nat.digits 10 n with _ | ⟨d, t⟩
  · rw [hds] at hrev; simp at hrev
  · rw [hds] at hrev
    simp only [List.map_cons, List.cons.injEq] at hrev
    have htnil : t = [] := by
      have h2 := hrev.2
      cases t
      · rfl
      · simp at h2
    have hmem : d ∈ Nat.digits 10 n := by rw [hds]; simp
    have hdlt : d < 10 := Nat.digits_lt_base (by norm_num) hmem
    have hd0 : d = 0 := digitChar_inj_below d hdlt 0 (by norm_num) hrev.1
    have hof : n = Nat.ofDigits 10 (Nat.digits 10 n) :=
      (Nat.ofDigits_digits 10 n).symm
    rw [hds, htnil, hd0] at hof
    simp [Nat.ofDigits] at hof
    exact hn hof

theorem decStr_inj (m n : Nat) (h : decStr m = decStr n) : m = n := by
  by_cases hm : m = 0
  · subst hm
    have : decStr n = "0" := by rw [← h]; rfl
    exact (decStr_eq_zero_str n this).symm
  · by_cases hn : n = 0
    · subst hn
      have : decStr m = "0" := by rw [h]; rfl
      exact decStr_eq_zero_str m this
    · simp only [decStr, if_neg hm, if_neg hn] at h
      have hd := congrArg String.data h
      have hmap := List.reverse_injective hd
      have hdig := map_digitChar_inj (Nat.digits 10 m) (Nat.digits 10 n)
        (fun _ hx => Nat.digits_lt_base (by norm_num) hx)
        (fun _ hx => Nat.digits_lt_base (by norm_num) hx) hmap
      exact Nat.digits_inj_iff.mp hdig

theorem tempIdStr_inj (t1 t2 : Nat) (h : tempIdStr t1 = tempIdStr t2) :
    t1 = t2 := by
  apply decStr_inj
  have hd := congrArg String.data h
  rw [tempIdStr, tempIdStr, string_data_append, string_data_append] at hd
  exact string_ext (List.append_cancel_left hd)

/-- **C4, counterexample.** Two distinct optimistic create operations
(different payloads) whose `onMutate` handlers run during the same
`Date.now()` millisecond attach the *same* temporary identifier `temp-1000`
to their optimistically inserted entities: uniqueness within the process is
not guaranteed by the code. -/
theorem tempId_collision_at_equal_timestamp :
    ([("title", JSVal.vStr "first")] : Obj) ≠ [("title", JSVal.vStr "second")] ∧
    getId (createdEntity [("title", JSVal.vStr "first")] 1000) =
      getId (createdEntity [("title", JSVal.vStr "second")] 1000) :=
  ⟨by decide, rfl⟩

/-- **C4, amended.** The temporary identifiers of two optimistic creates are
distinct whenever the two `onMutate` executions observe distinct
`Date.now()` values (the identifier embeds the millisecond timestamp
injectively); every temporary identifier is a string — never equal to a
server-issued numeric identifier — and carries the `temp-` prefix by which
reconciliation can recognise it. -/
theorem tempId_unique_per_tick (t1 t2 : Nat) (h : t1 ≠ t2) :
    JSVal.vStr (tempIdStr t1) ≠ JSVal.vStr (tempIdStr t2) ∧
    (∀ n : Int, JSVal.vStr (tempIdStr t1) ≠ JSVal.vNum n) ∧
    ∃ s, tempIdStr t1 = "temp-" ++ s := by
  constructor
  · intro hc
    exact h (tempIdStr_inj t1 t2 (by injection hc))
  constructor
  · intro n hc
    simp at hc
  · exact ⟨decStr t1, rfl⟩

/-- Witness for `tempId_unique_per_tick` at timestamps 0 and 1. -/
theorem tempId_unique_per_tick_witness :
    (0 : Nat) ≠ 1 ∧
    (JSVal.vStr (tempIdStr 0) ≠ JSVal.vStr (tempIdStr 1) ∧
     (∀ n : Int, JSVal.vStr (tempIdStr 0) ≠ JSVal.vNum n) ∧
     ∃ s, tempIdStr 0 = "temp-" ++ s) :=
  ⟨by decide, tempId_unique_per_tick 0 1 (by decide)⟩

/-- The durable-storage keys of the auth persistence contract
(`STORAGE KEYS` section of `useAuth.ts`). -/
def ACCESS_TOKEN_KEY : String := "access_token"

def REFRESH_TOKEN_KEY : String := "refresh_token"

def USER_KEY : String := "auth_user"

/-- The user object as the session manager expects it
(`Expected user shape: \x7b role: "admin" | "user", permissions?: string[] \x7d`);
`user?.role ?? null` also tolerates an absent role, hence both fields are
optional here. -/
structure UserProfile where
  role : Option String
  permissions : Option (List String)
deriving DecidableEq, Repr

def quoteStr (s : String) : String := "\x22" ++ s ++ "\x22"

/-- `JSON.stringify` of the user profile, as written under `USER_KEY`. -/
def stringifyUser (u : UserProfile) : String :=
  "\x7b" ++ quoteStr "role" ++ ":" ++
    (match u.role with | some r => quoteStr r | none => "null") ++
  "," ++ quoteStr "permissions" ++ ":" ++
    (match u.permissions with
     | some ps => "[" ++ String.intercalate "," (ps.map quoteStr) ++ "]"
     | none => "null") ++ "\x7d"

/-- `const role = user?.role ?? null`. -/
def roleOf (user : Option UserProfile) : Option String := user.bind (·.role)

/-- `const permissions = user?.permissions ?? []`. -/
def permissionsOf (user : Option UserProfile) : List String :=
  (user.bind (·.permissions)).getD []

/-- `hasRole = (r) => role === r`. -/
def hasRole (user : Option UserProfile) (r : String) : Bool :=
  roleOf user == some r

/-- `hasPermission = (perm) => permissions.includes(perm)`. -/
def hasPermission (user : Option UserProfile) (perm : String) : Bool :=
  (permissionsOf user).contains perm

/-- `hasAnyPermission = (perms) => perms.some((p) => permissions.includes(p))`. -/
def hasAnyPermission (user : Option UserProfile) (perms : List String) : Bool :=
  perms.any (fun p => (permissionsOf user).contains p)

/-- The combined observable state of the session manager: the durable
AsyncStorage map, the in-memory user (React state), and the React-Query
cache. -/
structure AuthState where
  storage : String → Option String
  user : Option UserProfile
  cache : QueryCache

/-- One primitive effect of an auth flow; every `await` boundary in the
handlers separates two such steps, so the state after each step is an
observable intermediate state. -/
inductive AuthStep where
  | setItem (k v : String)
  | multiRemove (ks : List String)
  | setUser (u : Option UserProfile)
  | clearCache

/-- Effect of one step: `AsyncStorage.setItem` overwrites one entry,
`AsyncStorage.multiRemove` deletes a batch of entries at once, `setUser`
publishes the in-memory session, `queryClient.clear()` drops the entity
cache. -/
def runStep (s : AuthState) (st : AuthStep) : AuthState :=
  match st with
  | .setItem k v =>
      { s with storage := fun k' => if k' = k then some v else s.storage k' }
  | .multiRemove ks =>
      { s with storage := fun k' => if k' ∈ ks then none else s.storage k' }
  | .setUser u => { s with user := u }
  | .clearCache => { s with cache := clearQueryCache }

def runSteps (s : AuthState) (l : List AuthStep) : AuthState := l.foldl runStep s

/-- The `\x7baccess, refresh?, user\x7d` payload returned by the remote
login/registration call. -/
structure LoginResponse where
  access : String
  refresh : Option String
  user : UserProfile

/-- `saveAuth`: `setItem(ACCESS_TOKEN_KEY, access)`, then — only when a
refresh token is present — `setItem(REFRESH_TOKEN_KEY, refresh)`, then
`setItem(USER_KEY, JSON.stringify(user))`; three separate awaited writes. -/
def saveAuthSteps (data : LoginResponse) : List AuthStep :=
  [AuthStep.setItem ACCESS_TOKEN_KEY data.access]
  ++ (match data.refresh with
      | some r => [AuthStep.setItem REFRESH_TOKEN_KEY r]
      | none => [])
  ++ [AuthStep.setItem USER_KEY (stringifyUser data.user)]

/-- `clearAuth`: one `AsyncStorage.multiRemove` of the three entries. -/
def clearAuthSteps : List AuthStep :=
  [AuthStep.multiRemove [ACCESS_TOKEN_KEY, REFRESH_TOKEN_KEY, USER_KEY]]

/-- `login.onSuccess`: `await saveAuth(data); setUser(data.user);
queryClient.clear()`. -/
def loginOnSuccessSteps (data : LoginResponse) : List AuthStep :=
  saveAuthSteps data ++ [AuthStep.setUser (some data.user), AuthStep.clearCache]

/-- `register.onSuccess`: same body as `login.onSuccess`. -/
def registerOnSuccessSteps (data : LoginResponse) : List AuthStep :=
  saveAuthSteps data ++ [AuthStep.setUser (some data.user), AuthStep.clearCache]

/-- `logout`: `await clearAuth(); setUser(null); queryClient.clear()`. -/
def logoutSteps : List AuthStep :=
  clearAuthSteps ++ [AuthStep.setUser none, AuthStep.clearCache]

/-- The `authEvents.subscribe` handler installed by `useAuth`:
`await clearAuth(); setUser(null); queryClient.clear()`. -/
def terminationHandlerSteps : List AuthStep :=
  clearAuthSteps ++ [AuthStep.setUser none, AuthStep.clearCache]

/-- **C2.** Along the `login.onSuccess` handler started from an
unauthenticated state, every observable intermediate state (one per `await`
boundary, enumerated by `List.scanl`) in which the in-memory session reports
an authenticated user already has the access token settled in the durable
store: the durable write completes before the in-memory session is
published.  Registration runs the identical handler body. -/
theorem persist_before_publish (s0 : AuthState) (d : LoginResponse)
    (h0 : s0.user = none) :
    (∀ s ∈ List.scanl runStep s0 (loginOnSuccessSteps d),
        s.user.isSome = true → s.storage ACCESS_TOKEN_KEY = some d.access) ∧
    registerOnSuccessSteps d = loginOnSuccessSteps d := by
  refine ⟨?_, rfl⟩
  rcases d with ⟨acc, rf, u⟩
  cases rf with
  | none =>
    intro s hs
    simp only [loginOnSuccessSteps, saveAuthSteps, List.scanl, List.mem_cons,
      List.append_nil, List.cons_append, List.nil_append,
      List.not_mem_nil, or_false] at hs
    rcases hs with rfl | rfl | rfl | rfl | rfl <;>
      simp_all [runStep, ACCESS_TOKEN_KEY, REFRESH_TOKEN_KEY, USER_KEY]
  | some r =>
    intro s hs
    simp only [loginOnSuccessSteps, saveAuthSteps, List.scanl, List.mem_cons,
      List.append_nil, List.cons_append, List.nil_append,
      List.not_mem_nil, or_false] at hs
    rcases hs with rfl | rfl | rfl | rfl | rfl | rfl <;>
      simp_all [runStep, ACCESS_TOKEN_KEY, REFRESH_TOKEN_KEY, USER_KEY]

/-- Witness for `persist_before_publish`: a concrete login from the empty
unauthenticated state. -/
theorem persist_before_publish_witness :
    (∀ s ∈ List.scanl runStep
        (⟨fun _ => none, none, clearQueryCache⟩ : AuthState)
        (loginOnSuccessSteps ⟨"tokA", some "tokR", ⟨some "admin", none⟩⟩),
        s.user.isSome = true → s.storage ACCESS_TOKEN_KEY = some "tokA") ∧
    registerOnSuccessSteps ⟨"tokA", some "tokR", ⟨some "admin", none⟩⟩ =
      loginOnSuccessSteps ⟨"tokA", some "tokR", ⟨some "admin", none⟩⟩ :=
  persist_before_publish ⟨fun _ => none, none, clearQueryCache⟩
    ⟨"tokA", some "tokR", ⟨some "admin", none⟩⟩ rfl

/-- **C3.** The local-logout path and the bus-handler path are the identical
step sequence, and after either is processed, `read(key)` on the entity
cache is absent for *every* key (in particular every key present at the
moment of the event), the three durable credential entries are gone, and the
in-memory session is cleared. -/
theorem termination_purges_everything (s0 : AuthState) (k : CacheKey) :
    terminationHandlerSteps = logoutSteps ∧
    getQueryData (runSteps s0 logoutSteps).cache k = none ∧
    (runSteps s0 logoutSteps).user = none ∧
    (runSteps s0 logoutSteps).storage ACCESS_TOKEN_KEY = none ∧
    (runSteps s0 logoutSteps).storage REFRESH_TOKEN_KEY = none ∧
    (runSteps s0 logoutSteps).storage USER_KEY = none := by
  refine ⟨rfl, ?_, ?_, ?_, ?_, ?_⟩ <;>
    simp [logoutSteps, clearAuthSteps, runSteps, runStep, getQueryData,
      clearQueryCache, ACCESS_TOKEN_KEY, REFRESH_TOKEN_KEY, USER_KEY]

/-- **C5** at its failing input.  `saveAuth` is three separate awaited
`setItem` calls, not one atomic group write: after the first write of
`login.onSuccess` settles (the `take 1` prefix), the durable store already
holds the access token while the user-profile entry is still absent — an
observable partial state.  And when the login response carries no refresh
token, the refresh entry is not written at all, so a refresh token left by
an earlier session survives establishment.  Removal, by contrast, is a
single batched `multiRemove` of exactly the three keys. -/
theorem saveAuth_not_atomic :
    (runSteps ⟨fun _ => none, none, clearQueryCache⟩
        ((loginOnSuccessSteps ⟨"tokA", some "tokR", ⟨some "admin", none⟩⟩).take 1)).storage
        ACCESS_TOKEN_KEY = some "tokA" ∧
    (runSteps ⟨fun _ => none, none, clearQueryCache⟩
        ((loginOnSuccessSteps ⟨"tokA", some "tokR", ⟨some "admin", none⟩⟩).take 1)).storage
        USER_KEY = none ∧
    (runSteps
        ⟨fun k' => if k' = REFRESH_TOKEN_KEY then some "staleRefresh" else none,
          none, clearQueryCache⟩
        (loginOnSuccessSteps ⟨"tokB", none, ⟨some "user", none⟩⟩)).storage
        REFRESH_TOKEN_KEY = some "staleRefresh" ∧
    clearAuthSteps =
      [AuthStep.multiRemove [ACCESS_TOKEN_KEY, REFRESH_TOKEN_KEY, USER_KEY]] := by
  refine ⟨?_, ?_, ?_, rfl⟩ <;>
    simp [loginOnSuccessSteps, saveAuthSteps, runSteps, runStep,
      ACCESS_TOKEN_KEY, REFRESH_TOKEN_KEY, USER_KEY]

/-- **C7.** `hasRole(r)` is true iff the in-memory user's role field equals
`r` exactly; `hasPermission(p)` iff `p` is a member of the user's permission
sequence; `hasAnyPermission(list)` iff some element of `list` is a member of
that sequence; and with no session in memory all three are false for every
argument. -/
theorem role_permission_evaluation (u : UserProfile) (r p : String)
    (ps : List String) :
    (hasRole (some u) r = true ↔ u.role = some r) ∧
    (hasPermission (some u) p = true ↔ p ∈ u.permissions.getD []) ∧
    (hasAnyPermission (some u) ps = true ↔
      ∃ q ∈ ps, q ∈ u.permissions.getD []) ∧
    hasRole none r = false ∧ hasPermission none p = false ∧
    hasAnyPermission none ps = false := by
  refine ⟨?_, ?_, ?_, ?_, ?_, ?_⟩ <;>
    simp [hasRole, hasPermission, hasAnyPermission, roleOf, permissionsOf,
      List.elem_iff, List.any_eq_true]

/-- A callback subscribed to the session event bus (`authEvents.ts`).
Callbacks are opaque zero-argument closures compared by reference (`!==`);
a reference identity is embedded as a natural number. -/
abbrev Listener := Nat

/-- `authEvents.subscribe(fn)`: `listeners.push(fn)` — appends to the
module-level registry. -/
def subscribeBus (listeners : List Listener) (fn : Listener) : List Listener :=
  listeners ++ [fn]

/-- The `unsubscribe` capability returned by `subscribe(fn)`:
`listeners = listeners.filter((l) => l !== fn)`, applied to whatever the
registry holds at invocation time. -/
def unsubscribeBus (listeners : List Listener) (fn : Listener) :
    List Listener :=
  listeners.filter (fun l => l ≠ fn)

/-- `authEvents.emitLogout()`: `listeners.forEach((l) => l())` — the
left-to-right synchronous invocation trace.  The emission returns after the
last synchronous call; nothing a callback starts asynchronously is
awaited. -/
def emitLogoutCalls (listeners : List Listener) : List Listener :=
  listeners.foldl (fun acc l => acc ++ [l]) []

theorem emitLogoutCalls_foldl (reg : List Listener) :
    ∀ acc : List Listener,
      reg.foldl (fun acc l => acc ++ [l]) acc = acc ++ reg := by
  induction reg with
  | nil => intro acc; simp
  | cons a t ih => intro acc; simp [List.foldl, ih]

/-- **C8.** Emission invokes exactly the currently subscribed callbacks,
synchronously and in subscription order: the invocation trace is the
registry itself, so with a duplicate-free registry (the spec's
insertion-ordered set) every subscribed callback is invoked exactly once and
an unsubscribed callback never. -/
theorem emit_invokes_in_subscription_order (reg : List Listener)
    (h : reg.Nodup) (f : Listener) :
    emitLogoutCalls reg = reg ∧
    (f ∈ reg → (emitLogoutCalls reg).count f = 1) ∧
    (f ∉ reg → (emitLogoutCalls reg).count f = 0) := by
  have he : emitLogoutCalls reg = reg := by
    simpa using emitLogoutCalls_foldl reg []
  refine ⟨he, ?_, ?_⟩
  · intro hf
    rw [he]
    exact List.count_eq_one_of_mem h hf
  · intro hf
    rw [he]
    exact List.count_eq_zero.mpr hf

/-- Witness for `emit_invokes_in_subscription_order` on the registry
`[7, 3, 5]` and callback `3`. -/
theorem emit_invokes_in_subscription_order_witness :
    emitLogoutCalls [7, 3, 5] = [7, 3, 5] ∧
    (3 ∈ [7, 3, 5] → (emitLogoutCalls [7, 3, 5]).count 3 = 1) ∧
    (3 ∉ [7, 3, 5] → (emitLogoutCalls [7, 3, 5]).count 3 = 0) :=
  emit_invokes_in_subscription_order [7, 3, 5] (by decide) 3

/-- **C9.** The unsubscribe capability removes exactly the callback it was
created for — a listener survives the call iff it was registered and is not
that callback, the relative order of survivors is preserved (sublist), and
unsubscribing immediately after subscribing cancels the subscription — and
it is idempotent: a second invocation leaves the registry unchanged. -/
theorem unsubscribe_exact_idempotent (reg : List Listener) (fn : Listener) :
    unsubscribeBus (unsubscribeBus reg fn) fn = unsubscribeBus reg fn ∧
    (∀ g, g ∈ unsubscribeBus reg fn ↔ g ∈ reg ∧ g ≠ fn) ∧
    (unsubscribeBus reg fn).Sublist reg ∧
    unsubscribeBus (subscribeBus reg fn) fn = unsubscribeBus reg fn := by
  refine ⟨?_, ?_, ?_, ?_⟩
  · simp [unsubscribeBus, List.filter_filter]
  · intro g
    simp [unsubscribeBus, List.mem_filter]
  · exact List.filter_sublist reg
  · simp [unsubscribeBus, subscribeBus, List.filter_append]
